import Mathlib

/-!
Verification of the bach expression compiler, typed-column operation builder and
savepoint orchestrator (objectiv-analytics).

The definitions below are a shallow embedding of the Python source:
- `bach/expression.py`  (tokens, expressions, construct, resolution, SQL emission)
- `bach/series/series.py` (binary operations, `_derived_agg_func`)
- `bach/savepoints.py`  (savepoint registry, statement generation, execution)

Helpers that live in the excluded `sql_models` collaborator or in modules that are
not part of the sources (quoting, escaping, graph emission, partitioning) are
modelled from the specification; each such definition carries a doc comment that
starts with `Modelled from the spec:`.
-/

namespace Bach

/-! ## Python string splitting

`fmt.split('\x7b\x7d')` from Python, modelled on character lists: the string is
cut at every non-overlapping occurrence of the two-character interpolation
marker, scanning left to right. This is the splitting used by
`Expression.construct`. -/

/-- Split a character list at every non-overlapping occurrence of the
`\x7b\x7d` marker (Python `str.split` for that separator). `acc` is the current
segment, reversed. -/
def splitMarkerAux : List Char → List Char → List (List Char)
  | [], acc => [acc.reverse]
  | [c], acc => [(c :: acc).reverse]
  | c1 :: c2 :: rest, acc =>
    if c1 = '\x7b' ∧ c2 = '\x7d' then
      acc.reverse :: splitMarkerAux rest []
    else
      splitMarkerAux (c2 :: rest) (c1 :: acc)

/-- Python `fmt.split('\x7b\x7d')` for strings. -/
def pySplit (s : String) : List String :=
  (splitMarkerAux s.data []).map String.mk

/-! ## Spec-modelled SQL string helpers (from the excluded `sql_models.util`) -/

/-- Modelled from the spec: `SqlModelSpec.escape_format_string` from the excluded
`sql_models` collaborator escapes literal SQL text against the named-placeholder
template substitution syntax, by doubling every brace character. -/
def escape_format_string (s : String) : String :=
  String.mk (s.data.flatMap fun c =>
    if c = '\x7b' then ['\x7b', '\x7b']
    else if c = '\x7d' then ['\x7d', '\x7d']
    else [c])

/-- Modelled from the spec: `quote_string` from the excluded `sql_models.util`
renders a string payload "with quoting and escaping applied at emission time"
(single-quote delimiters, embedded quotes doubled). -/
def quote_string (v : String) : String :=
  String.mk ('\x27' :: (v.data.flatMap fun c =>
    if c = '\x27' then ['\x27', '\x27'] else [c]) ++ ['\x27'])

/-- Modelled from the spec: `quote_identifier` from the excluded `sql_models.util`
produces the "quoted ... column identifier" (double-quote delimiters, embedded
double quotes doubled). -/
def quote_identifier (s : String) : String :=
  String.mk ('"' :: (s.data.flatMap fun c =>
    if c = '"' then ['"', '"'] else [c]) ++ ['"'])

/-! ## Tokens (`bach/expression.py`)

One constructor per concrete `ExpressionToken` subclass. The abstract base class
cannot be instantiated in the source (`__post_init__` raises), so it has no
constructor here. A `ModelReferenceToken` holds an `SqlModel` from the excluded
graph collaborator; the model matters only through its stable hash, so it is
carried as that hash string. -/

inductive Token where
  | raw (s : String)
  | placeHolder (dtype : String) (nm : String)
  | columnReference (columnName : String)
  | modelReference (modelHash : String)
  | stringValue (value : String)
  | variableStringValue (value : String) (referenceName : String)
deriving DecidableEq, Repr

/-- The message of the `ValueError` raised by `ColumnReferenceToken.to_sql`. -/
def columnReferenceError : String :=
  "ColumnReferenceTokens should be resolved first using Expression.resolve_column_references"

/-- `ExpressionToken.to_sql` per concrete subclass. Emitting an unresolved
`ColumnReferenceToken` raises (`ValueError`), modelled as `Except.error`. -/
def Token.to_sql : Token → Except String String
  | .raw s => .ok (escape_format_string s)
  | .placeHolder _ nm => .ok ("\x7b__bach_placeholder_" ++ nm ++ "\x7d")
  | .columnReference _ => .error columnReferenceError
  | .modelReference h => .ok ("\x7breference" ++ h ++ "\x7d")
  | .stringValue v => .ok (escape_format_string (quote_string v))
  | .variableStringValue v _ => .ok (escape_format_string (quote_string v))

/-- Is this token an unresolved column reference? -/
def Token.isColumnReference : Token → Bool
  | .columnReference _ => true
  | _ => false

/-- `ColumnReferenceToken.resolve(table_name)`: rewrite to a `RawToken` with the
quoted, optionally table-qualified identifier. An absent or empty table name
(both falsy in the source) yields no qualification. -/
def Token.resolveColumnReference (tableName : Option String) (columnName : String) : Token :=
  match tableName with
  | some t =>
      if t = "" then .raw (quote_identifier columnName)
      else .raw (quote_identifier t ++ "." ++ quote_identifier columnName)
  | none => .raw (quote_identifier columnName)

/-! ## Expressions (`bach/expression.py`)

The source uses a class hierarchy over one `Expression` class holding a tuple of
tokens and sub-expressions; the subclass only tags the node (plus an optional
`name` on `ConstValueExpression`). We embed this as a `kind` tag plus the
ordered child sequence. `ExprList` is the child sequence (token or expression at
each position). -/

inductive ExprKind where
  | plain
  | nonAtomic
  | independentSubquery
  | singleValue
  | constValue (nm : Option String)
  | aggregateFunction
  | windowFunction
deriving DecidableEq, Repr

mutual
inductive Expression where
  | mk (kind : ExprKind) (data : ExprList)
deriving Repr

inductive ExprList where
  | nil
  | tok (t : Token) (rest : ExprList)
  | expr (e : Expression) (rest : ExprList)
deriving Repr
end

namespace ExprList

def append : ExprList → ExprList → ExprList
  | .nil, l => l
  | .tok t r, l => .tok t (append r l)
  | .expr e r, l => .expr e (append r l)

/-- A child sequence consisting solely of tokens. -/
def ofTokens : List Token → ExprList
  | [] => .nil
  | t :: r => .tok t (ofTokens r)

end ExprList

def Expression.kind : Expression → ExprKind
  | .mk k _ => k

def Expression.data : Expression → ExprList
  | .mk _ d => d

/-! ### Derived semantic flags

`is_single_value` / `is_constant`: true on the marker variant itself, else
`len(list) and all(list)` over the expression-typed children, i.e. at least one
expression child and all expression children satisfy the property.
`AggregateFunctionExpression` overrides `is_constant` to `False`;
`WindowFunctionExpression` overrides `is_constant` and `has_aggregate_function`
to `False`; `SingleValueExpression` (and through inheritance
`ConstValueExpression`) overrides `is_independent_subquery` to the
at-least-one-and-all rule. -/

mutual
/-- `Expression.is_single_value` (`SingleValueExpression` covers its subclass
`ConstValueExpression`). -/
def Expression.is_single_value : Expression → Bool
  | .mk .singleValue _ => true
  | .mk (.constValue _) _ => true
  | .mk _ d => d.someExprAllSingle

/-- At least one expression child, and every expression child single-valued. -/
def ExprList.someExprAllSingle : ExprList → Bool
  | .nil => false
  | .tok _ r => r.someExprAllSingle
  | .expr e r => e.is_single_value && r.allSingle

/-- Every expression child single-valued. -/
def ExprList.allSingle : ExprList → Bool
  | .nil => true
  | .tok _ r => r.allSingle
  | .expr e r => e.is_single_value && r.allSingle
end

mutual
/-- `Expression.is_constant`, with the `AggregateFunctionExpression` and
`WindowFunctionExpression` overrides returning `False`. -/
def Expression.is_constant : Expression → Bool
  | .mk (.constValue _) _ => true
  | .mk .aggregateFunction _ => false
  | .mk .windowFunction _ => false
  | .mk _ d => d.someExprAllConstant

/-- At least one expression child, and every expression child constant. -/
def ExprList.someExprAllConstant : ExprList → Bool
  | .nil => false
  | .tok _ r => r.someExprAllConstant
  | .expr e r => e.is_constant && r.allConstant

/-- Every expression child constant. -/
def ExprList.allConstant : ExprList → Bool
  | .nil => true
  | .tok _ r => r.allConstant
  | .expr e r => e.is_constant && r.allConstant
end

mutual
/-- `Expression.is_independent_subquery`: true on the marker variant;
`SingleValueExpression` (and `ConstValueExpression`) use the
at-least-one-and-all rule over expression children; all other classes inherit
the plain `isinstance` check and are `False`. -/
def Expression.is_independent_subquery : Expression → Bool
  | .mk .independentSubquery _ => true
  | .mk .singleValue d => d.someExprAllIndep
  | .mk (.constValue _) d => d.someExprAllIndep
  | .mk _ _ => false

/-- At least one expression child, and every expression child an independent
subquery. -/
def ExprList.someExprAllIndep : ExprList → Bool
  | .nil => false
  | .tok _ r => r.someExprAllIndep
  | .expr e r => e.is_independent_subquery && r.allIndep

/-- Every expression child an independent subquery. -/
def ExprList.allIndep : ExprList → Bool
  | .nil => true
  | .tok _ r => r.allIndep
  | .expr e r => e.is_independent_subquery && r.allIndep
end

mutual
/-- `Expression.has_aggregate_function`: true iff self is an
`AggregateFunctionExpression` or any expression child has one; the
`WindowFunctionExpression` override returns `False`. -/
def Expression.has_aggregate_function : Expression → Bool
  | .mk .windowFunction _ => false
  | .mk .aggregateFunction _ => true
  | .mk _ d => d.anyAgg

/-- Some expression child has an aggregate function. -/
def ExprList.anyAgg : ExprList → Bool
  | .nil => false
  | .tok _ r => r.anyAgg
  | .expr e r => e.has_aggregate_function || r.anyAgg
end

mutual
/-- `Expression.has_windowed_aggregate_function`: true iff self is a
`WindowFunctionExpression` or any expression child has one. -/
def Expression.has_windowed_aggregate_function : Expression → Bool
  | .mk .windowFunction _ => true
  | .mk _ d => d.anyWindowed

/-- Some expression child has a windowed aggregate function. -/
def ExprList.anyWindowed : ExprList → Bool
  | .nil => false
  | .tok _ r => r.anyWindowed
  | .expr e r => e.has_windowed_aggregate_function || r.anyWindowed
end

/-! ### Column reference resolution and SQL emission -/

/-- `resolve_column_references` rebuilds each node as `self.__class__(result)`;
for `ConstValueExpression` the constructor is called without the `name`
argument, so the optional name is reset to `None`. All other kinds are kept. -/
def resolveKind : ExprKind → ExprKind
  | .constValue _ => .constValue none
  | k => k

/-- Per-item token treatment inside `resolve_column_references`: a
`ColumnReferenceToken` is resolved, every other token is kept unchanged. -/
def Token.resolveItem (tn : Option String) : Token → Token
  | .columnReference c => Token.resolveColumnReference tn c
  | t => t

mutual
/-- `Expression.resolve_column_references(table_name)`: recursively rewrite every
`ColumnReferenceToken` into a resolved `RawToken`, returning a new tree. -/
def Expression.resolve_column_references (tn : Option String) : Expression → Expression
  | .mk k d => .mk (resolveKind k) (d.resolveItems tn)

def ExprList.resolveItems (tn : Option String) : ExprList → ExprList
  | .nil => .nil
  | .tok t r => .tok (t.resolveItem tn) (r.resolveItems tn)
  | .expr e r => .expr (e.resolve_column_references tn) (r.resolveItems tn)
end

mutual
/-- Does this expression contain an unresolved `ColumnReferenceToken` anywhere? -/
def Expression.containsColumnReference : Expression → Bool
  | .mk _ d => d.itemsContainColumnReference

def ExprList.itemsContainColumnReference : ExprList → Bool
  | .nil => false
  | .tok t r => t.isColumnReference || r.itemsContainColumnReference
  | .expr e r => e.containsColumnReference || r.itemsContainColumnReference
end

mutual
/-- SQL text of an expression whose column references have already been
resolved: the concatenation, in order, of each child item `d.to_sql()`. In the
source each expression child re-resolves with `table_name=None` inside its own
`to_sql`; after the outer recursive resolution that inner pass is the identity
(`resolve_resolved` below), so it is elided here. -/
def Expression.sql_of_resolved : Expression → Except String String
  | .mk _ d => d.sqlItems

def ExprList.sqlItems : ExprList → Except String String
  | .nil => .ok ""
  | .tok t r => do
      let s ← t.to_sql
      let rest ← r.sqlItems
      pure (s ++ rest)
  | .expr e r => do
      let s ← e.sql_of_resolved
      let rest ← r.sqlItems
      pure (s ++ rest)
end

/-- `Expression.to_sql(table_name)`: resolve column references against the alias,
then concatenate each child item, depth-first, left to right. -/
def Expression.to_sql (e : Expression) (tableName : Option String) : Except String String :=
  (e.resolve_column_references tableName).sql_of_resolved

/-! ### Structural equality and hashing (`__eq__` / `__hash__`)

`__eq__` checks `isinstance(other, Expression) and self.data == other.data`: the
concrete subclass of either side plays no role, and the `name` field of a
`ConstValueExpression` is not part of `data`. Tokens are frozen dataclasses and
compare by variant and fields. `__hash__` is `hash(self._data)`: a combination
of the child hashes only, where an expression child again contributes a
kind-independent hash. The concrete combinator below stands in for the opaque
CPython tuple hash; any function of the same shape satisfies the hash contract. -/

def Token.hashv : Token → Nat
  | .raw s => 2 + 8 * s.hash.toNat
  | .placeHolder d n => 3 + 8 * (mixHash d.hash n.hash).toNat
  | .columnReference c => 4 + 8 * c.hash.toNat
  | .modelReference h => 5 + 8 * h.hash.toNat
  | .stringValue v => 6 + 8 * v.hash.toNat
  | .variableStringValue v r => 7 + 8 * (mixHash v.hash r.hash).toNat

mutual
/-- `Expression.__eq__`. -/
def Expression.beq : Expression → Expression → Bool
  | .mk _ d1, .mk _ d2 => d1.itemsBeq d2

def ExprList.itemsBeq : ExprList → ExprList → Bool
  | .nil, .nil => true
  | .tok t1 r1, .tok t2 r2 => decide (t1 = t2) && r1.itemsBeq r2
  | .expr e1 r1, .expr e2 r2 => e1.beq e2 && r1.itemsBeq r2
  | _, _ => false
end

mutual
/-- `Expression.__hash__`. -/
def Expression.hashv : Expression → Nat
  | .mk _ d => d.itemsHash

def ExprList.itemsHash : ExprList → Nat
  | .nil => 7
  | .tok t r => r.itemsHash * 31 + t.hashv
  | .expr e r => r.itemsHash * 31 + e.hashv
end

/-! ### `Expression.construct` -/

/-- Items contributed by one argument: a `NonAtomicExpression` argument is
wrapped in parenthesis tokens before insertion, any other argument is inserted
as is. (A `Series` argument contributes its `expression`; arguments are already
expressions here.) -/
def argItems (a : Expression) : ExprList :=
  if a.kind = .nonAtomic then
    .tok (.raw ("(")) (.expr a (.tok (.raw (")")) .nil))
  else
    .expr a .nil

/-- Items contributed by one literal segment: empty segments are dropped,
non-empty segments become `RawToken`s. -/
def segItems (s : String) : ExprList :=
  if s = "" then .nil else .tok (.raw s) .nil

/-- The loop body of `Expression.construct` for all segments after the first:
each further segment is preceded by the next argument. -/
def constructTail : List String → List Expression → ExprList
  | [], _ => .nil
  | s :: rest, [] => (segItems s).append (constructTail rest [])
  | s :: rest, a :: args => (argItems a).append ((segItems s).append (constructTail rest args))

/-- `Expression.construct(fmt, *args)`: split `fmt` on the `\x7b\x7d` marker,
require exactly one argument per marker (mismatch is a `ValueError` reporting
both counts), interleave literal segments as `RawToken`s with the arguments,
parenthesising `NonAtomicExpression` arguments. Invoked on the base class it
returns a plain `Expression`. -/
def Expression.construct (fmt : String) (args : List Expression) : Except String Expression :=
  let subStrs := pySplit fmt
  if args.length ≠ subStrs.length - 1 then
    .error ("For each \x7b\x7d in the fmt there should be an Expression provided. " ++
            "Found \x7b\x7d: " ++ toString (subStrs.length - 1) ++
            ", provided expressions: " ++ toString args.length)
  else  -- the error text above is `constructArityError (subStrs.length - 1) args.length`
    .ok (.mk .plain (match subStrs with
      | [] => .nil
      | s :: rest => (segItems s).append (constructTail rest args)))

/-- `Expression.raw(raw)`. -/
def Expression.rawE (s : String) : Expression := .mk .plain (.tok (.raw s) .nil)

/-- `Expression.column_reference(field_name)`. -/
def Expression.column_reference (fieldName : String) : Expression :=
  .mk .plain (.tok (.columnReference fieldName) .nil)

/-- `Expression.string_value(value)`. -/
def Expression.string_value (value : String) : Expression :=
  .mk .plain (.tok (.stringValue value) .nil)

/-! ## Typed columns (`bach/series/series.py`)

The `Series` class wraps one expression plus metadata. The claims under
verification inspect the engine handle, the base-relation identity
(`base_node`), the semantic type (`dtype`), the expression, the grouping
descriptor and the sort direction: the engine and base node are carried as
identity strings, and the index as its ordered list of column names, since no
claim looks deeper. The grouping descriptors live in `bach/partitioning.py`,
which is not among the sources, so `GroupBy`/`Window` are modelled from the
spec. -/

/-- Modelled from the spec: a grouping-or-window context descriptor
(`bach/partitioning.py` is not among the sources). A plain grouping carries its
index (the grouping keys); a window additionally carries the configured
minimum-rows value (`min_values`) that `min_count` is checked against. A
`Window` is a `GroupBy` in the source hierarchy, so both satisfy the
`_check_unwrap_groupby` type check. -/
inductive Partition where
  | groupBy (index : List String)
  | window (index : List String) (minValues : Option Nat)
deriving DecidableEq, Repr

/-- The index columns of the grouping context. -/
def Partition.index : Partition → List String
  | .groupBy idx => idx
  | .window idx _ => idx

/-- Is this context genuinely a window? -/
def Partition.isWindow : Partition → Bool
  | .groupBy _ => false
  | .window _ _ => true

/-- Modelled from the spec: `Window.get_window_expression` applies the
window-clause wrapper to the built expression, yielding a
`WindowFunctionExpression` (the partitioning is contained within the
expression). -/
def Partition.getWindowExpression (p : Partition) (e : Expression) : Expression :=
  .mk .windowFunction
    (.expr e (.tok (.raw (" OVER (PARTITION BY " ++ String.intercalate (", ") p.index ++ ")")) .nil))

/-- A typed column: engine handle, base-relation identity, index-column names,
name, expression, optional pending grouping descriptor, optional sort
direction, and the semantic type (the concrete Python subclass is determined by
`dtype` through the excluded type registry, so the class is carried as the
`dtype` string). -/
structure Series where
  dtype : String
  engine : String
  base_node : String
  index : List String
  name : String
  expression : Expression
  group_by : Option Partition
  sorted_ascending : Option Bool

/-- `Series.copy_override(...)`: produce a new instance with zero or more fields
replaced; `None` means keep the current value. For `group_by` the source wraps
the new value in a one-element list so that "set to `None`" is distinguishable
from "keep": that is the inner `Option`. A replaced `dtype` switches the
concrete class via the type registry; here the class is the `dtype` field
itself. -/
def Series.copy_override (s : Series) (dtype : Option String) (engine : Option String)
    (base_node : Option String) (index : Option (List String)) (name : Option String)
    (expression : Option Expression) (group_by : Option (Option Partition))
    (sorted_ascending : Option Bool) : Series :=
  { dtype := dtype.getD s.dtype
    engine := engine.getD s.engine
    base_node := base_node.getD s.base_node
    index := index.getD s.index
    name := name.getD s.name
    expression := expression.getD s.expression
    group_by := group_by.getD s.group_by
    sorted_ascending := match sorted_ascending with
      | none => s.sorted_ascending
      | some b => some b }

/-! ### Binary operations -/

/-- The `ValueError` message of `Series._get_supported` for a base-node
mismatch: it names the remedy (an explicit `merge()`). -/
def differentBaseNodeMessage (operationName : String) : String :=
  "Cannot apply " ++ operationName ++ " on two series with different base_node. " ++
  "Hint: make sure both series belong to or are derived from the same DataFrame. " ++
  "Alternative: use merge() to create a DataFrame with both series. "

/-- `Series._get_supported(operation_name, supported_dtypes, other)`: verify the
same base-relation identity, then that the right-hand dtype is in the
whitelist. -/
def Series.get_supported (s : Series) (operationName : String)
    (supportedDtypes : List String) (other : Series) : Except String Series :=
  if s.base_node ≠ other.base_node then
    .error (differentBaseNodeMessage operationName)
  else if other.dtype.toLower ∉ supportedDtypes then
    .error (operationName ++ " not supported between " ++ s.dtype ++ " and " ++ other.dtype ++ ".")
  else
    .ok other

/-- The result-dtype parameter of `Series._binary_operation`: fixed, or a
lookup table from the right-hand dtype, or `None` for same-as-left. -/
inductive DtypeSpec where
  | keep
  | fixed (dtype : String)
  | mapped (table : List (String × String))

/-- `Series._binary_operation(other, operation, fmt_str, other_dtypes, dtype)`,
for the case where `other` is already a typed column (`const_to_series` returns
a `Series` argument unchanged). An empty whitelist raises
`NotImplementedError`; then the same-origin and type checks run, the result
expression is built via `Expression.construct`, and the result dtype is
resolved. -/
def Series.binary_operation (s : Series) (other : Series) (operation : String)
    (fmtStr : String) (otherDtypes : List String) (dtype : DtypeSpec) :
    Except String Series := do
  if otherDtypes = [] then
    throw ("binary operation " ++ operation ++ " not supported for these series types")
  let other ← s.get_supported operation otherDtypes other
  let expression ← Expression.construct fmtStr [s.expression, other.expression]
  let dtypeResolved : Option String :=
    match dtype with
    | .keep => none
    | .fixed d => some d
    | .mapped table =>
        match table.lookup other.dtype with
        | some d => some d
        | none => none
  pure (s.copy_override dtypeResolved none none none none (some expression) none none)

/-- `Series._arithmetic_operation`: same contract as `_binary_operation` with an
arithmetic-specific `NotImplementedError` message for an empty whitelist. -/
def Series.arithmetic_operation (s : Series) (other : Series) (operation : String)
    (fmtStr : String) (otherDtypes : List String) (dtype : DtypeSpec) :
    Except String Series :=
  if otherDtypes = [] then
    .error ("arithmetic operation " ++ operation ++ " not supported for these series types")
  else
    s.binary_operation other operation fmtStr otherDtypes dtype

/-- `Series._comparator_operation`: delegates to `_binary_operation` with a
boolean result dtype. -/
def Series.comparator_operation (s : Series) (other : Series) (comparator : String)
    (otherDtypes : List String) : Except String Series :=
  if otherDtypes = [] then
    .error ("comparator " ++ comparator ++ " not supported for these series types")
  else
    s.binary_operation other ("comparator \x27" ++ comparator ++ "\x27")
      ("(\x7b\x7d) " ++ comparator ++ " (\x7b\x7d)") otherDtypes (.fixed ("bool"))

/-! ### Aggregate dispatch (`Series._derived_agg_func`) -/

/-- Modelled from the spec: `GroupBy.get_dummy_index_series` synthesizes a
whole-relation grouping context with a single constant grouping key named
`index`. -/
def dummyGroupBy : Partition := .groupBy [("index")]

/-- The aggregate function argument of `_derived_agg_func`: a function-name
string (wrapped as `name(\x7b\x7d)`), or an already-built expression. -/
inductive AggExpr where
  | fname (nm : String)
  | expr (e : Expression)

/-- Build the aggregation expression for the column: a function-name string is
wrapped around the column expression via `Expression.construct`. -/
def Series.buildAggExpression (s : Series) : AggExpr → Except String Expression
  | .fname nm => Expression.construct (nm ++ "(\x7b\x7d)") [s.expression]
  | .expr e => .ok e

/-- Partition resolution in `_derived_agg_func`: with no supplied context use
the pending grouping if set, else the synthesized whole-relation grouping; a
supplied context is unwrapped by `_check_unwrap_groupby`, whose type checks
always pass for a genuine `GroupBy`/`Window`. -/
def Series.resolvePartition (s : Series) (partition : Option Partition) : Partition :=
  match partition with
  | none =>
      match s.group_by with
      | some gb => gb
      | none => dummyGroupBy
  | some p => p

/-- Final step of `_derived_agg_func`: for a plain grouping, reject a pending
grouping that differs from the supplied one, then re-index the result by the
grouping context and mark it a pending aggregation; for a window, apply the
window-clause wrapper and keep the current index. -/
def Series.aggFinish (s : Series) (partition : Partition) (expression : Expression)
    (dtype : Option String) : Except String Series :=
  let derivedDtype := dtype.getD s.dtype
  match partition with
  | .groupBy _ =>
      if s.group_by.isSome && s.group_by ≠ some partition then
        .error ("passed partition does not match series partition. I\x27m confused")
      else
        .ok (s.copy_override (some derivedDtype) none none (some partition.index) none
          (some expression) (some (some partition)) none)
  | .window _ _ =>
      .ok (s.copy_override (some derivedDtype) none none none none
        (some (partition.getWindowExpression expression)) none none)

/-- `Series._derived_agg_func` for `min_count=None` (no minimum-row handling):
`skipna=False` is unsupported, then expression building, partition resolution
and the final step. `Series.count` below is this specialization at `count`, so
the `min_count` handling of the full function can call it without recursion. -/
def Series.derivedAggFuncBase (s : Series) (partition : Option Partition)
    (expression : AggExpr) (dtype : Option String) (skipna : Bool) :
    Except String Series := do
  if !skipna then
    throw ("Not skipping n/a is not supported")
  let expr0 ← s.buildAggExpression expression
  let part := s.resolvePartition partition
  s.aggFinish part expr0 dtype

/-- `Series.count(partition, skipna)`. -/
def Series.count (s : Series) (partition : Option Partition) (skipna : Bool) :
    Except String Series :=
  s.derivedAggFuncBase partition (.fname ("count")) (some ("int64")) skipna

/-- The `min_count` handling of `_derived_agg_func`: only a positive
`min_count` is checked. Against a window it must equal the configured
`min_values` or the call fails with a configuration conflict; against a plain
grouping the expression is wrapped in a conditional that substitutes NULL
unless a count of this column over the partition reaches `min_count`. -/
def Series.minCountAdjust (s : Series) (partition : Partition) (expression : Expression)
    (skipna : Bool) (minCount : Option Nat) : Except String Expression :=
  match minCount with
  | none => .ok expression
  | some mc =>
      if 0 < mc then
        match partition with
        | .window _ minValues =>
            if minValues ≠ some mc then
              .error ("min_count conflicting with min_values in Window" ++
                      Nat.repr mc ++ " != " ++
                      (match minValues with | none => "None" | some v => Nat.repr v))
            else
              .ok expression
        | .groupBy _ => do
            let countSeries ← s.count (some partition) skipna
            Expression.construct
              ("CASE WHEN \x7b\x7d >= " ++ Nat.repr mc ++ " THEN \x7b\x7d ELSE NULL END")
              [countSeries.expression, expression]
      else
        .ok expression

/-- `Series._derived_agg_func(partition, expression, dtype, skipna, min_count)`. -/
def Series.derivedAggFunc (s : Series) (partition : Option Partition)
    (expression : AggExpr) (dtype : Option String) (skipna : Bool)
    (minCount : Option Nat) : Except String Series := do
  if !skipna then
    throw ("Not skipping n/a is not supported")
  let expr0 ← s.buildAggExpression expression
  let part := s.resolvePartition partition
  let expr1 ← s.minCountAdjust part expr0 skipna minCount
  s.aggFinish part expr1 dtype

/-! ## Savepoints (`bach/savepoints.py`) -/

/-- The materialization kinds of the excluded `sql_models` collaborator that a
savepoint can carry. -/
inductive Materialization where
  | query
  | table
  | view
  | virtualNode
deriving DecidableEq, Repr

/-- Modelled from the spec: a tabular snapshot (`DataFrame`, not among the
sources) is carried by the identity of its underlying compiled graph node;
`DataFrame.copy()` yields an equal snapshot, so copying is the identity on this
value representation. -/
structure DataFrameM where
  base_node : String
deriving DecidableEq, Repr

/-- `SavepointEntry`: name, owned snapshot copy, materialization kind, and the
set of engine identities (urls) this entry has been executed against. The set
is carried as a duplicate-free list. -/
structure SavepointEntry where
  name : String
  df_original : DataFrameM
  materialization : Materialization
  written_to_db : List String
deriving DecidableEq, Repr

/-- `CreatedObject`: a created database object (view/table). -/
structure CreatedObject where
  name : String
  materialization : Materialization
deriving DecidableEq, Repr

/-- `SqlExecutionResult`: created objects plus per-name query row sets. -/
structure SqlExecutionResult where
  created : List CreatedObject
  data : List (String × List (List String))
deriving DecidableEq, Repr

/-- `Savepoints`: the name-keyed, insertion-ordered registry of entries. -/
structure Savepoints where
  entries : List SavepointEntry
deriving DecidableEq, Repr

/-- Dictionary lookup `self._entries[name]` (names are unique by construction). -/
def Savepoints.findEntry (sp : Savepoints) (nm : String) : Option SavepointEntry :=
  sp.entries.find? (fun e => e.name = nm)

/-- The name validation: `re.match` against the pattern ^[a-zA-Z0-9_]+$. -/
def validSavepointName (nm : String) : Bool :=
  nm ≠ "" && nm.data.all (fun c => c.isAlphanum || c = '_')

/-- `Savepoints.add_savepoint(name, df, materialization)`: validate the name;
an identical existing (snapshot, kind) pair is a no-op; a differing one is an
error; otherwise register a copy of the snapshot with an empty
materialized-engine set. -/
def Savepoints.add_savepoint (sp : Savepoints) (nm : String) (df : DataFrameM)
    (materialization : Materialization) : Except String Savepoints :=
  if !validSavepointName nm then
    .error ("Name must match ^[a-zA-Z0-9_]+$, name: \"" ++ nm ++ "\"")
  else
    match sp.findEntry nm with
    | some existing =>
        if existing.df_original ≠ df ∨ existing.materialization ≠ materialization then
          .error ("A different savepoint with the name \"" ++ nm ++ "\" already exists.")
        else
          .ok sp
    | none =>
        .ok ⟨sp.entries ++
          [{ name := nm, df_original := df, materialization := materialization,
             written_to_db := [] }]⟩

/-- Modelled from the spec: the combined-graph emission
(`to_sql_materialized_nodes` over `_get_combined_graph`, both in the excluded
`sql_models` collaborator) produces exactly one named SQL statement per
savepoint, in dependency (topological) order. The statement text is the
snapshot query wrapped by the entry materialization, and the order is the
registry order. -/
def materializeStatement (mat : Materialization) (nm : String) (innerSql : String) : String :=
  match mat with
  | .table => "create table " ++ quote_identifier nm ++ " as " ++ innerSql
  | .view => "create view " ++ quote_identifier nm ++ " as " ++ innerSql
  | _ => innerSql

/-- The single SQL statement emitted for one savepoint entry (see
`materializeStatement`). -/
def entryStatement (e : SavepointEntry) : String :=
  materializeStatement e.materialization e.name ("select * from " ++ e.df_original.base_node)

/-- Modelled from the spec: `Savepoints.to_sql()` returns the ordered mapping
from savepoint name to that savepoint statement (see `materializeStatement`). -/
def Savepoints.to_sql (sp : Savepoints) : List (String × String) :=
  sp.entries.map (fun e => (e.name, entryStatement e))

/-- `Savepoints.get_drop_statements()`: iterate the reversed statement order and
keep a drop statement for every TABLE or VIEW entry. -/
def Savepoints.get_drop_statements (sp : Savepoints) : List (String × String) :=
  (sp.to_sql).reverse.filterMap (fun p =>
    match sp.findEntry p.1 with
    | some info =>
        match info.materialization with
        | .table => some (p.1, "drop table if exists " ++ quote_identifier p.1)
        | .view => some (p.1, "drop view if exists " ++ quote_identifier p.1)
        | _ => none
    | none => none)

/-- `Savepoints.get_create_statements()`: the statements of `to_sql`, in order,
restricted to TABLE and VIEW entries. -/
def Savepoints.get_create_statements (sp : Savepoints) : List (String × String) :=
  (sp.to_sql).filter (fun p =>
    match sp.findEntry p.1 with
    | some info =>
        info.materialization = Materialization.table ∨ info.materialization = Materialization.view
    | none => False)

/-- Does the named entry exist with TABLE or VIEW materialization? -/
def Savepoints.isTableOrView (sp : Savepoints) (nm : String) : Bool :=
  match sp.findEntry nm with
  | some e => decide (e.materialization = Materialization.table
      ∨ e.materialization = Materialization.view)
  | none => false

/-- A database engine: its identity (`engine.url`) plus the transport behavior
of `conn.execute` — whether a statement succeeds, and the rows it returns. -/
structure Engine where
  url : String
  execOk : String → Bool
  rows : String → List (List String)

/-- One entry with the engine url added to its materialized-engine set
(`info.written_to_db.add(engine.url)`). -/
def addUrlEntry (url : String) (e : SavepointEntry) : SavepointEntry :=
  { e with written_to_db := if url ∈ e.written_to_db then e.written_to_db
                            else e.written_to_db ++ [url] }

/-- Add an engine url to the materialized-engine set of the named entry
(an in-place Python `set.add` on the entry stored in the registry). -/
def addWritten (entries : List SavepointEntry) (nm : String) (url : String) :
    List SavepointEntry :=
  entries.map (fun e => if e.name = nm then addUrlEntry url e else e)

/-- The statement loop of `Savepoints.execute_sql`: execute each statement in
order; a QUERY entry contributes its row set, a TABLE/VIEW entry contributes a
created-object marker; after each successful statement the engine identity is
added to that entry in place. A failing statement raises: the loop stops, the
accumulated result is discarded, and the in-place `written_to_db` mutations of
the already executed statements remain. -/
def execLoop (engine : Engine) : List (String × String) → List SavepointEntry →
    List CreatedObject → List (String × List (List String)) →
    Except String SqlExecutionResult × List SavepointEntry
  | [], entries, created, dat => (.ok ⟨created, dat⟩, entries)
  | (nm, stmt) :: rest, entries, created, dat =>
      match (Savepoints.findEntry ⟨entries⟩ nm) with
      | none => (.error ("KeyError: " ++ nm), entries)
      | some info =>
          if engine.execOk stmt then
            let dat2 := if info.materialization = Materialization.query then
                dat ++ [(nm, engine.rows stmt)]
              else dat
            let created2 := if info.materialization = Materialization.table ∨
                info.materialization = Materialization.view then
                created ++ [⟨nm, info.materialization⟩]
              else created
            execLoop engine rest (addWritten entries nm engine.url) created2 dat2
          else
            (.error ("statement failed: " ++ stmt), entries)

/-- `Savepoints.execute_sql(engine, overwrite)`: open one transaction; with
`overwrite`, first run all drop statements joined into one combined statement;
then run the statement loop; commit only after all statements succeed. A raise
anywhere aborts the database transaction (nothing is committed), but the
in-place registry mutations made before the failure are kept — exactly as in
the source, where `written_to_db` is a Python set mutated per statement. -/
def Savepoints.execute_sql (sp : Savepoints) (engine : Engine) (overwrite : Bool) :
    Except String SqlExecutionResult × Savepoints :=
  let stmts := sp.to_sql
  let runLoop : Except String SqlExecutionResult × Savepoints :=
    let r := execLoop engine stmts sp.entries [] []
    (r.1, ⟨r.2⟩)
  if overwrite then
    let dropStatements := sp.get_drop_statements
    if dropStatements ≠ [] then
      let dropSql := String.intercalate ("; ") (dropStatements.map Prod.snd)
      if engine.execOk dropSql then runLoop
      else (.error ("statement failed: " ++ dropSql), sp)
    else runLoop
  else runLoop

/-! ## Statement-side definitions used by the claim theorems -/

/-- The child sequence of a plain wrapping `X = wrap(A, B)` built from two
expressions plus arbitrary surrounding tokens. -/
def wrapData (A B : Expression) (ts1 ts2 ts3 : List Token) : ExprList :=
  (ExprList.ofTokens ts1).append
    (.expr A ((ExprList.ofTokens ts2).append (.expr B (ExprList.ofTokens ts3))))

/-- The SQL text of an expression that is known to emit successfully. -/
def sqlValue (e : Expression) : String :=
  match e.sql_of_resolved with
  | .ok s => s
  | .error _ => ""

/-- The rendered text one `construct` argument contributes to the SQL output: a
`NonAtomicExpression` argument is surrounded by an opening parenthesis
immediately before and a closing parenthesis immediately after its own rendered
text; any other argument is rendered bare. -/
def renderArgSql (a : Expression) : String :=
  if a.kind = .nonAtomic then
    "(" ++ sqlValue (a.resolve_column_references none) ++ ")"
  else
    sqlValue (a.resolve_column_references none)

/-- The SQL rendering of the interleaving of the later format segments with the
arguments. -/
def interleaveTail : List String → List Expression → String
  | [], _ => ""
  | s :: rest, [] => escape_format_string s ++ interleaveTail rest []
  | s :: rest, a :: args => renderArgSql a ++ (escape_format_string s ++ interleaveTail rest args)

/-- The SQL rendering of a `construct` result: first literal segment, then
arguments interleaved with the remaining segments. -/
def interleaveSql : List String → List Expression → String
  | [], _ => ""
  | s :: rest, args => escape_format_string s ++ interleaveTail rest args

/-- The expression built by `Expression.construct` for `count(\x7b\x7d)` applied
to a non-NonAtomic column expression. -/
def countExpression (x : Expression) : Expression :=
  .mk .plain (.tok (.raw ("count(")) (.expr x (.tok (.raw (")")) .nil)))

/-- The conditional wrapper produced by the `min_count` handling over a plain
grouping: NULL is substituted unless the count of the column over the partition
reaches `min_count`. -/
def caseWhenExpression (mc : Nat) (c e : Expression) : Expression :=
  .mk .plain (.tok (.raw ("CASE WHEN "))
    (.expr c (.tok (.raw (" >= " ++ Nat.repr mc ++ " THEN "))
      (.expr e (.tok (.raw (" ELSE NULL END")) .nil)))))

/-- The `ValueError` message of `Expression.construct` for an
argument-count/marker-count mismatch, reporting both counts. -/
def constructArityError (markers provided : Nat) : String :=
  "For each \x7b\x7d in the fmt there should be an Expression provided. " ++
  "Found \x7b\x7d: " ++ toString markers ++ ", provided expressions: " ++ toString provided

/-! ## Lemmas about the derived semantic flags -/

theorem ExprList.anyAgg_ofTokens_append (ts : List Token) (l : ExprList) :
    ((ExprList.ofTokens ts).append l).anyAgg = l.anyAgg := by
  induction ts with
  | nil => rfl
  | cons t r ih => simpa [ExprList.ofTokens, ExprList.append, ExprList.anyAgg] using ih

theorem ExprList.anyAgg_ofTokens (ts : List Token) :
    (ExprList.ofTokens ts).anyAgg = false := by
  induction ts with
  | nil => rfl
  | cons t r ih => simpa [ExprList.ofTokens, ExprList.anyAgg] using ih

theorem ExprList.someExprAllConstant_ofTokens_append (ts : List Token) (l : ExprList) :
    ((ExprList.ofTokens ts).append l).someExprAllConstant = l.someExprAllConstant := by
  induction ts with
  | nil => rfl
  | cons t r ih =>
      simpa [ExprList.ofTokens, ExprList.append, ExprList.someExprAllConstant] using ih

theorem ExprList.someExprAllConstant_ofTokens (ts : List Token) :
    (ExprList.ofTokens ts).someExprAllConstant = false := by
  induction ts with
  | nil => rfl
  | cons t r ih => simpa [ExprList.ofTokens, ExprList.someExprAllConstant] using ih

theorem ExprList.allConstant_ofTokens_append (ts : List Token) (l : ExprList) :
    ((ExprList.ofTokens ts).append l).allConstant = l.allConstant := by
  induction ts with
  | nil => rfl
  | cons t r ih => simpa [ExprList.ofTokens, ExprList.append, ExprList.allConstant] using ih

theorem ExprList.allConstant_ofTokens (ts : List Token) :
    (ExprList.ofTokens ts).allConstant = true := by
  induction ts with
  | nil => rfl
  | cons t r ih => simpa [ExprList.ofTokens, ExprList.allConstant] using ih

/-- C2: for every pair of expressions `A`, `B` and every plain wrapping built
from them plus tokens, `has_aggregate_function` propagates from any child
(`A.has_aggregate_function or B.has_aggregate_function`), `is_constant` holds
iff both expression children are constant (the two expression children make the
at-least-one-child condition automatic), and a plain expression whose children
are only tokens (for instance two Raw tokens) is never constant. -/
theorem claim_C2_propagation (A B : Expression) (ts1 ts2 ts3 : List Token) :
    ((Expression.mk .plain (wrapData A B ts1 ts2 ts3)).has_aggregate_function
        = (A.has_aggregate_function || B.has_aggregate_function))
    ∧ ((Expression.mk .plain (wrapData A B ts1 ts2 ts3)).is_constant
        = (A.is_constant && B.is_constant))
    ∧ (∀ ts : List Token, (Expression.mk .plain (ExprList.ofTokens ts)).is_constant = false)
    ∧ (∀ (n : Option String) (ts : List Token),
        (Expression.mk (.constValue n) (ExprList.ofTokens ts)).is_constant = true) := by
  refine ⟨?_, ?_, ?_, fun n ts => rfl⟩
  · simp [Expression.has_aggregate_function, wrapData, ExprList.anyAgg_ofTokens_append,
      ExprList.anyAgg, ExprList.anyAgg_ofTokens]
  · simp [Expression.is_constant, wrapData, ExprList.someExprAllConstant_ofTokens_append,
      ExprList.someExprAllConstant, ExprList.allConstant_ofTokens_append,
      ExprList.allConstant, ExprList.allConstant_ofTokens]
  · intro ts
    simp [Expression.is_constant, ExprList.someExprAllConstant_ofTokens]

/-! ## Lemmas about structural equality and hashing -/

mutual
theorem Expression.beq_refl : ∀ e : Expression, e.beq e = true
  | .mk _ d => by simp [Expression.beq, ExprList.itemsBeq_refl d]

theorem ExprList.itemsBeq_refl : ∀ l : ExprList, l.itemsBeq l = true
  | .nil => rfl
  | .tok t r => by simp [ExprList.itemsBeq, ExprList.itemsBeq_refl r]
  | .expr e r => by simp [ExprList.itemsBeq, Expression.beq_refl e, ExprList.itemsBeq_refl r]
end

mutual
theorem Expression.hashv_of_beq :
    ∀ e1 e2 : Expression, e1.beq e2 = true → e1.hashv = e2.hashv
  | .mk _ d1, .mk _ d2, h => by
      simp only [Expression.beq] at h
      simpa [Expression.hashv] using ExprList.itemsHash_of_beq d1 d2 h

theorem ExprList.itemsHash_of_beq :
    ∀ l1 l2 : ExprList, l1.itemsBeq l2 = true → l1.itemsHash = l2.itemsHash
  | .nil, .nil, _ => rfl
  | .nil, .tok _ _, h => by simp [ExprList.itemsBeq] at h
  | .nil, .expr _ _, h => by simp [ExprList.itemsBeq] at h
  | .tok _ _, .nil, h => by simp [ExprList.itemsBeq] at h
  | .tok t1 r1, .tok t2 r2, h => by
      simp only [ExprList.itemsBeq, Bool.and_eq_true, decide_eq_true_eq] at h
      simp [ExprList.itemsHash, h.1, ExprList.itemsHash_of_beq r1 r2 h.2]
  | .tok _ _, .expr _ _, h => by simp [ExprList.itemsBeq] at h
  | .expr _ _, .nil, h => by simp [ExprList.itemsBeq] at h
  | .expr _ _, .tok _ _, h => by simp [ExprList.itemsBeq] at h
  | .expr e1 r1, .expr e2 r2, h => by
      simp only [ExprList.itemsBeq, Bool.and_eq_true] at h
      simp [ExprList.itemsHash, Expression.hashv_of_beq e1 e2 h.1,
        ExprList.itemsHash_of_beq r1 r2 h.2]
end

/-- C10: expression equality compares exactly the ordered child sequences — the
marker subclass of either side plays no role, so a marker-variant expression
equals a plain expression with the same children; equal expressions have equal
hashes; and the optional `name` of a `ConstValueExpression` plays no role in
equality or hashing. -/
theorem claim_C10_structural_equality :
    (∀ (k1 k2 : ExprKind) (d1 d2 : ExprList),
        (Expression.mk k1 d1).beq (Expression.mk k2 d2) = d1.itemsBeq d2)
    ∧ (∀ (k : ExprKind) (d : ExprList),
        (Expression.mk k d).beq (Expression.mk .plain d) = true)
    ∧ (∀ e1 e2 : Expression, e1.beq e2 = true → e1.hashv = e2.hashv)
    ∧ (∀ (n1 n2 : Option String) (d1 d2 : ExprList),
        (Expression.mk (.constValue n1) d1).beq (Expression.mk (.constValue n2) d2)
          = d1.itemsBeq d2
        ∧ (Expression.mk (.constValue n1) d1).hashv = (Expression.mk .plain d1).hashv) := by
  refine ⟨fun k1 k2 d1 d2 => rfl, fun k d => ?_, Expression.hashv_of_beq, fun n1 n2 d1 d2 => ⟨rfl, rfl⟩⟩
  simp [Expression.beq, ExprList.itemsBeq_refl d]

/-- C10 witness: a marker-variant expression and a plain expression with the
same single-token child compare equal and hash identically. -/
theorem claim_C10_witness :
    (Expression.mk .aggregateFunction (.tok (.raw ("f")) .nil)).hashv
      = (Expression.mk (.constValue (some ("c"))) (.tok (.raw ("f")) .nil)).hashv :=
  claim_C10_structural_equality.2.2.1
    (Expression.mk .aggregateFunction (.tok (.raw ("f")) .nil))
    (Expression.mk (.constValue (some ("c"))) (.tok (.raw ("f")) .nil))
    (by simp [Expression.beq, ExprList.itemsBeq])

/-! ## Lemmas about column-reference resolution and SQL emission -/

theorem bind_ok_eq {α β : Type} (x : α) (f : α → Except String β) :
    (Except.ok x >>= f : Except String β) = f x := rfl

theorem bind_error_eq {α β : Type} (msg : String) (f : α → Except String β) :
    (Except.error msg >>= f : Except String β) = Except.error msg := rfl

theorem Token.resolveColumnReference_raw (tn : Option String) (c : String) :
    ∃ s, Token.resolveColumnReference tn c = .raw s := by
  cases tn with
  | none => exact ⟨_, rfl⟩
  | some t =>
      by_cases h : t = ""
      · exact ⟨quote_identifier c, by simp [Token.resolveColumnReference, h]⟩
      · exact ⟨quote_identifier t ++ "." ++ quote_identifier c,
          by simp [Token.resolveColumnReference, h]⟩

theorem Token.resolveItem_not_columnReference (tn : Option String) (t : Token) :
    (t.resolveItem tn).isColumnReference = false := by
  cases t with
  | columnReference c =>
      obtain ⟨s, hs⟩ := Token.resolveColumnReference_raw tn c
      simp [Token.resolveItem, hs, Token.isColumnReference]
  | _ => simp [Token.resolveItem, Token.isColumnReference]

theorem Token.resolveItem_resolveItem (tn tn' : Option String) (t : Token) :
    (t.resolveItem tn).resolveItem tn' = t.resolveItem tn := by
  cases t with
  | columnReference c =>
      obtain ⟨s, hs⟩ := Token.resolveColumnReference_raw tn c
      simp [Token.resolveItem, hs]
  | _ => simp [Token.resolveItem]

theorem Token.to_sql_ok_of_not_columnReference (t : Token)
    (h : t.isColumnReference = false) : ∃ s, t.to_sql = .ok s := by
  cases t with
  | columnReference c => simp [Token.isColumnReference] at h
  | _ => exact ⟨_, rfl⟩

theorem resolveKind_resolveKind (k : ExprKind) : resolveKind (resolveKind k) = resolveKind k := by
  cases k <;> rfl

mutual
theorem Expression.resolve_resolve (tn tn' : Option String) :
    ∀ e : Expression,
      (e.resolve_column_references tn).resolve_column_references tn'
        = e.resolve_column_references tn
  | .mk k d => by
      simp only [Expression.resolve_column_references]
      rw [resolveKind_resolveKind, ExprList.resolveItems_resolveItems tn tn' d]

theorem ExprList.resolveItems_resolveItems (tn tn' : Option String) :
    ∀ l : ExprList, (l.resolveItems tn).resolveItems tn' = l.resolveItems tn
  | .nil => rfl
  | .tok t r => by
      simp only [ExprList.resolveItems]
      rw [Token.resolveItem_resolveItem tn tn' t,
        ExprList.resolveItems_resolveItems tn tn' r]
  | .expr e r => by
      simp only [ExprList.resolveItems]
      rw [Expression.resolve_resolve tn tn' e, ExprList.resolveItems_resolveItems tn tn' r]
end

mutual
theorem Expression.resolve_no_columnReference (tn : Option String) :
    ∀ e : Expression, (e.resolve_column_references tn).containsColumnReference = false
  | .mk k d => by
      simp only [Expression.resolve_column_references, Expression.containsColumnReference]
      exact ExprList.resolveItems_no_columnReference tn d

theorem ExprList.resolveItems_no_columnReference (tn : Option String) :
    ∀ l : ExprList, (l.resolveItems tn).itemsContainColumnReference = false
  | .nil => rfl
  | .tok t r => by
      simp only [ExprList.resolveItems, ExprList.itemsContainColumnReference]
      rw [Token.resolveItem_not_columnReference tn t,
        ExprList.resolveItems_no_columnReference tn r]
      rfl
  | .expr e r => by
      simp only [ExprList.resolveItems, ExprList.itemsContainColumnReference]
      rw [Expression.resolve_no_columnReference tn e,
        ExprList.resolveItems_no_columnReference tn r]
      rfl
end

mutual
theorem Expression.sql_ok_of_no_columnReference :
    ∀ e : Expression, e.containsColumnReference = false →
      ∃ s, e.sql_of_resolved = .ok s
  | .mk k d, h => by
      simp only [Expression.containsColumnReference] at h
      simpa [Expression.sql_of_resolved] using ExprList.sqlItems_ok_of_no_columnReference d h

theorem ExprList.sqlItems_ok_of_no_columnReference :
    ∀ l : ExprList, l.itemsContainColumnReference = false → ∃ s, l.sqlItems = .ok s
  | .nil, _ => ⟨"", rfl⟩
  | .tok t r, h => by
      simp only [ExprList.itemsContainColumnReference, Bool.or_eq_false_iff] at h
      obtain ⟨s1, hs1⟩ := Token.to_sql_ok_of_not_columnReference t h.1
      obtain ⟨s2, hs2⟩ := ExprList.sqlItems_ok_of_no_columnReference r h.2
      exact ⟨s1 ++ s2, by simp [ExprList.sqlItems, hs1, hs2, bind_ok_eq]⟩
  | .expr e r, h => by
      simp only [ExprList.itemsContainColumnReference, Bool.or_eq_false_iff] at h
      obtain ⟨s1, hs1⟩ := Expression.sql_ok_of_no_columnReference e h.1
      obtain ⟨s2, hs2⟩ := ExprList.sqlItems_ok_of_no_columnReference r h.2
      exact ⟨s1 ++ s2, by simp [ExprList.sqlItems, hs1, hs2, bind_ok_eq]⟩
end

mutual
theorem Expression.sql_error_of_columnReference :
    ∀ e : Expression, e.containsColumnReference = true →
      e.sql_of_resolved = .error columnReferenceError
  | .mk k d, h => by
      simp only [Expression.containsColumnReference] at h
      simpa [Expression.sql_of_resolved] using ExprList.sqlItems_error_of_columnReference d h

theorem ExprList.sqlItems_error_of_columnReference :
    ∀ l : ExprList, l.itemsContainColumnReference = true →
      l.sqlItems = .error columnReferenceError
  | .tok t r, h => by
      simp only [ExprList.itemsContainColumnReference, Bool.or_eq_true] at h
      cases ht : t.isColumnReference with
      | true =>
          cases t with
          | columnReference c => simp [ExprList.sqlItems, Token.to_sql, bind_error_eq]
          | _ => simp [Token.isColumnReference] at ht
      | false =>
          have hr : r.itemsContainColumnReference = true := by
            rcases h with h | h
            · rw [ht] at h; exact absurd h (by simp)
            · exact h
          obtain ⟨s1, hs1⟩ := Token.to_sql_ok_of_not_columnReference t ht
          simp [ExprList.sqlItems, hs1, bind_ok_eq,
            ExprList.sqlItems_error_of_columnReference r hr, bind_error_eq]
  | .expr e r, h => by
      simp only [ExprList.itemsContainColumnReference, Bool.or_eq_true] at h
      cases he : e.containsColumnReference with
      | true =>
          simp [ExprList.sqlItems, Expression.sql_error_of_columnReference e he, bind_error_eq]
      | false =>
          have hr : r.itemsContainColumnReference = true := by
            rcases h with h | h
            · rw [he] at h; exact absurd h (by simp)
            · exact h
          obtain ⟨s1, hs1⟩ := Expression.sql_ok_of_no_columnReference e he
          simp [ExprList.sqlItems, hs1, bind_ok_eq,
            ExprList.sqlItems_error_of_columnReference r hr, bind_error_eq]
end

/-- C7: emitting an unresolved `ColumnReferenceToken` fails with the
programming-error signal — at the token level, and for any expression that
still contains one; `to_sql(relation_alias)` resolves implicitly first, after
which the tree contains no unresolved reference, so emission always succeeds. -/
theorem claim_C7_unresolved_reference (c : String) (e : Expression) (tn : Option String) :
    Token.to_sql (.columnReference c) = .error columnReferenceError
    ∧ (e.containsColumnReference = true → e.sql_of_resolved = .error columnReferenceError)
    ∧ (e.resolve_column_references tn).containsColumnReference = false
    ∧ (∃ s, e.to_sql tn = .ok s) :=
  ⟨rfl, Expression.sql_error_of_columnReference e,
    Expression.resolve_no_columnReference tn e,
    Expression.sql_ok_of_no_columnReference _ (Expression.resolve_no_columnReference tn e)⟩

/-- C7 witness: instantiated at a bare column reference, emission of the
unresolved tree fails, and `to_sql` with an alias succeeds. -/
theorem claim_C7_witness :
    (Expression.column_reference ("city")).sql_of_resolved = .error columnReferenceError
    ∧ (∃ s, (Expression.column_reference ("city")).to_sql (some ("t")) = .ok s) :=
  ⟨(claim_C7_unresolved_reference ("city") (Expression.column_reference ("city"))
      (some ("t"))).2.1 (by simp [Expression.column_reference,
        Expression.containsColumnReference, ExprList.itemsContainColumnReference,
        Token.isColumnReference]),
   (claim_C7_unresolved_reference ("city") (Expression.column_reference ("city"))
      (some ("t"))).2.2.2⟩

theorem ExprList.resolveItems_append (tn : Option String) :
    ∀ l1 l2 : ExprList,
      (l1.append l2).resolveItems tn = (l1.resolveItems tn).append (l2.resolveItems tn)
  | .nil, l2 => rfl
  | .tok t r, l2 => by
      simp [ExprList.append, ExprList.resolveItems, ExprList.resolveItems_append tn r l2]
  | .expr e r, l2 => by
      simp [ExprList.append, ExprList.resolveItems, ExprList.resolveItems_append tn r l2]

theorem ExprList.sqlItems_append_ok :
    ∀ l1 l2 : ExprList, ∀ s1 s2 : String,
      l1.sqlItems = .ok s1 → l2.sqlItems = .ok s2 →
      (l1.append l2).sqlItems = .ok (s1 ++ s2)
  | .nil, l2, s1, s2, h1, h2 => by
      simp only [ExprList.sqlItems] at h1
      cases h1
      simpa [ExprList.append, String.empty_append] using h2
  | .tok t r, l2, s1, s2, h1, h2 => by
      cases ht : t.to_sql with
      | error msg => simp [ExprList.sqlItems, ht, bind_error_eq] at h1
      | ok a =>
          cases hr : r.sqlItems with
          | error msg => simp [ExprList.sqlItems, ht, hr, bind_ok_eq, bind_error_eq] at h1
          | ok b =>
              simp only [ExprList.sqlItems, ht, hr, bind_ok_eq] at h1
              cases h1
              have := ExprList.sqlItems_append_ok r l2 b s2 hr h2
              simp [ExprList.append, ExprList.sqlItems, ht, this, bind_ok_eq,
                String.append_assoc]
  | .expr e r, l2, s1, s2, h1, h2 => by
      cases he : e.sql_of_resolved with
      | error msg => simp [ExprList.sqlItems, he, bind_error_eq] at h1
      | ok a =>
          cases hr : r.sqlItems with
          | error msg => simp [ExprList.sqlItems, he, hr, bind_ok_eq, bind_error_eq] at h1
          | ok b =>
              simp only [ExprList.sqlItems, he, hr, bind_ok_eq] at h1
              cases h1
              have := ExprList.sqlItems_append_ok r l2 b s2 hr h2
              simp [ExprList.append, ExprList.sqlItems, he, this, bind_ok_eq,
                String.append_assoc]

theorem Expression.sqlValue_spec (e : Expression) (h : e.containsColumnReference = false) :
    e.sql_of_resolved = .ok (sqlValue e) := by
  obtain ⟨s, hs⟩ := Expression.sql_ok_of_no_columnReference e h
  rw [hs, sqlValue, hs]

theorem segItems_resolveItems (tn : Option String) (s : String) :
    (segItems s).resolveItems tn = segItems s := by
  by_cases h : s = "" <;> simp [segItems, h, ExprList.resolveItems, Token.resolveItem]

theorem segItems_sqlItems (s : String) :
    (segItems s).sqlItems = .ok (escape_format_string s) := by
  by_cases h : s = ""
  · subst h
    rfl
  · simp [segItems, h, ExprList.sqlItems, Token.to_sql, bind_ok_eq, String.append_empty]

theorem argItems_resolveItems_sqlItems (a : Expression) :
    ((argItems a).resolveItems none).sqlItems = .ok (renderArgSql a) := by
  have hok := Expression.sqlValue_spec (a.resolve_column_references none)
    (Expression.resolve_no_columnReference none a)
  by_cases h : a.kind = .nonAtomic
  · simp [argItems, h, renderArgSql, ExprList.resolveItems, Token.resolveItem,
      ExprList.sqlItems, Token.to_sql, hok, bind_ok_eq, String.append_empty,
      String.append_assoc, escape_format_string]
  · simp [argItems, h, renderArgSql, ExprList.resolveItems,
      ExprList.sqlItems, hok, bind_ok_eq, String.append_empty]

theorem constructTail_sql :
    ∀ (rest : List String) (args : List Expression),
      ((constructTail rest args).resolveItems none).sqlItems = .ok (interleaveTail rest args)
  | [], args => by cases args <;> rfl
  | s :: rest, [] => by
      rw [constructTail, ExprList.resolveItems_append, interleaveTail]
      exact ExprList.sqlItems_append_ok _ _ _ _
        (by rw [segItems_resolveItems]; exact segItems_sqlItems s)
        (constructTail_sql rest [])
  | s :: rest, a :: args => by
      rw [constructTail, ExprList.resolveItems_append, ExprList.resolveItems_append,
        interleaveTail]
      refine ExprList.sqlItems_append_ok _ _ _ _ (argItems_resolveItems_sqlItems a) ?_
      exact ExprList.sqlItems_append_ok _ _ _ _
        (by rw [segItems_resolveItems]; exact segItems_sqlItems s)
        (constructTail_sql rest args)

/-- C6: `Expression.construct` wraps exactly the `NonAtomicExpression`
arguments in parentheses — the rendered SQL is the interleaving of the escaped
literal segments with each argument rendering, where a NonAtomic argument
contributes `(` immediately before its own rendered text and `)` immediately
after it, and every other argument contributes its text bare
(`renderArgSql`) — and a mismatch between the number of markers and the number
of arguments is an error at construction time reporting both counts. -/
theorem claim_C6_construct_parenthesization (fmt : String) (args : List Expression) :
    (args.length ≠ (pySplit fmt).length - 1 →
      Expression.construct fmt args
        = .error (constructArityError ((pySplit fmt).length - 1) args.length))
    ∧ (args.length = (pySplit fmt).length - 1 →
      ∃ X, Expression.construct fmt args = .ok X
        ∧ X.to_sql none = .ok (interleaveSql (pySplit fmt) args)) := by
  constructor
  · intro h
    simp only [Expression.construct, if_pos h]
    rfl
  · intro h
    have hc : ¬ args.length ≠ (pySplit fmt).length - 1 := not_ne_iff.mpr h
    refine ⟨Expression.mk .plain (match pySplit fmt with
        | [] => .nil
        | s :: rest => (segItems s).append (constructTail rest args)), ?_, ?_⟩
    · simp only [Expression.construct, if_neg hc]
    · cases hsplit : pySplit fmt with
      | nil => rfl
      | cons s rest =>
          simp only [Expression.to_sql, Expression.resolve_column_references,
            Expression.sql_of_resolved, interleaveSql]
          rw [ExprList.resolveItems_append]
          exact ExprList.sqlItems_append_ok _ _ _ _
            (by rw [segItems_resolveItems]; exact segItems_sqlItems s)
            (constructTail_sql rest args)

/-- C6 witness: a NonAtomic first argument is parenthesized in the rendered
SQL, a plain second argument is not; and a one-marker format given no arguments
fails reporting one marker and zero arguments. -/
theorem claim_C6_witness :
    (∃ X, Expression.construct ("\x7b\x7d OP \x7b\x7d")
        [Expression.mk .nonAtomic (.tok (.raw ("a")) .nil), Expression.rawE ("b")] = .ok X
      ∧ X.to_sql none = .ok ("(a) OP b"))
    ∧ Expression.construct ("f(\x7b\x7d)") [] = .error (constructArityError 1 0) := by
  constructor
  · obtain ⟨X, h1, h2⟩ :=
      (claim_C6_construct_parenthesization ("\x7b\x7d OP \x7b\x7d")
        [Expression.mk .nonAtomic (.tok (.raw ("a")) .nil), Expression.rawE ("b")]).2 (by rfl)
    exact ⟨X, h1, by rw [h2]; rfl⟩
  · exact (claim_C6_construct_parenthesization ("f(\x7b\x7d)") []).1 (by decide)

/-! ## Lemmas about binary operations -/

/-- C4: combining two typed columns whose base-relation identities differ never
silently produces a result — every route through `_binary_operation` (including
the arithmetic and comparator wrappers) fails; whenever the right-hand
whitelist is non-empty the failure is the compatibility error, whose message
names the remedy (`merge()`). -/
theorem claim_C4_base_node_guard (s other : Series) (operation fmtStr cmp : String)
    (otherDtypes : List String) (dspec : DtypeSpec)
    (h : s.base_node ≠ other.base_node) :
    (∃ msg, s.binary_operation other operation fmtStr otherDtypes dspec = .error msg)
    ∧ (otherDtypes ≠ [] →
        s.binary_operation other operation fmtStr otherDtypes dspec
            = .error (differentBaseNodeMessage operation)
        ∧ s.arithmetic_operation other operation fmtStr otherDtypes dspec
            = .error (differentBaseNodeMessage operation)
        ∧ s.comparator_operation other cmp otherDtypes
            = .error (differentBaseNodeMessage ("comparator \x27" ++ cmp ++ "\x27")))
    ∧ (∃ pre post, differentBaseNodeMessage operation = pre ++ "merge()" ++ post) := by
  have hbin : otherDtypes ≠ [] →
      s.binary_operation other operation fmtStr otherDtypes dspec
        = .error (differentBaseNodeMessage operation) := by
    intro hne
    simp [Series.binary_operation, hne, Series.get_supported, h, bind_error_eq, throw,
      throwThe, MonadExceptOf.throw]
  refine ⟨?_, fun hne => ⟨hbin hne, ?_, ?_⟩, ?_⟩
  · by_cases hne : otherDtypes = []
    · exact ⟨"binary operation " ++ operation ++ " not supported for these series types",
        by simp [Series.binary_operation, hne, throw, throwThe, MonadExceptOf.throw,
          bind_error_eq]⟩
    · exact ⟨differentBaseNodeMessage operation, hbin hne⟩
  · simp [Series.arithmetic_operation, hne, hbin hne]
  · have := hbin
    simp only [Series.comparator_operation, if_neg hne]
    simp [Series.binary_operation, hne, Series.get_supported, h, bind_error_eq, throw,
      throwThe, MonadExceptOf.throw]
  · refine ⟨"Cannot apply " ++ operation ++
      " on two series with different base_node. " ++
      "Hint: make sure both series belong to or are derived from the same DataFrame. " ++
      "Alternative: use ", " to create a DataFrame with both series. ", ?_⟩
    simp only [differentBaseNodeMessage, String.append_assoc]
    congr 2

/-- C4 witness: two concrete int64 columns over different base relations; the
addition template fails with the compatibility error, which contains the
`merge()` remedy. -/
theorem claim_C4_witness :
    (Series.binary_operation
        { dtype := "int64", engine := "e", base_node := "n1", index := ["i"], name := "a",
          expression := Expression.rawE ("a"), group_by := none, sorted_ascending := none }
        { dtype := "int64", engine := "e", base_node := "n2", index := ["i"], name := "b",
          expression := Expression.rawE ("b"), group_by := none, sorted_ascending := none }
        ("add") ("(\x7b\x7d) + (\x7b\x7d)") [("int64")] .keep
      = .error (differentBaseNodeMessage ("add")))
    ∧ (∃ pre post, differentBaseNodeMessage ("add") = pre ++ "merge()" ++ post) := by
  have h := claim_C4_base_node_guard
    { dtype := "int64", engine := "e", base_node := "n1", index := ["i"], name := "a",
      expression := Expression.rawE ("a"), group_by := none, sorted_ascending := none }
    { dtype := "int64", engine := "e", base_node := "n2", index := ["i"], name := "b",
      expression := Expression.rawE ("b"), group_by := none, sorted_ascending := none }
    ("add") ("(\x7b\x7d) + (\x7b\x7d)") ("=") [("int64")] .keep (by decide)
  exact ⟨(h.2.1 (by decide)).1, h.2.2⟩

/-- C8: column-reference resolution is idempotent — resolving twice yields the
same tree, hence the same SQL text, as resolving once (the original tree is
untouched throughout: every pass builds a new tree). -/
theorem claim_C8_idempotent_resolution (e : Expression) (tn : Option String) :
    ((e.resolve_column_references tn).resolve_column_references tn).to_sql none
      = (e.resolve_column_references tn).to_sql none
    ∧ (e.resolve_column_references tn).resolve_column_references tn
      = e.resolve_column_references tn := by
  refine ⟨?_, Expression.resolve_resolve tn tn e⟩
  rw [Expression.resolve_resolve tn tn e]

/-! ## Lemmas for the minimum-count aggregation (C3) -/

theorem digitChar_ne_lbrace (n : Nat) : Nat.digitChar n ≠ '\x7b' := by
  by_cases h16 : n < 16
  · interval_cases n <;> decide
  · have hstar : Nat.digitChar n = '*' := by
      unfold Nat.digitChar
      repeat rw [if_neg (by omega)]
    rw [hstar]
    decide

theorem toDigitsCore_ne_lbrace (b f : Nat) :
    ∀ (n : Nat) (ds : List Char), (∀ c ∈ ds, c ≠ '\x7b') →
      ∀ c ∈ Nat.toDigitsCore b f n ds, c ≠ '\x7b' := by
  induction f with
  | zero => intro n ds hds; simpa [Nat.toDigitsCore] using hds
  | succ f ih =>
      intro n ds hds
      simp only [Nat.toDigitsCore]
      split
      · intro c hc
        rcases List.mem_cons.mp hc with h | h
        · subst h; exact digitChar_ne_lbrace _
        · exact hds c h
      · refine ih _ _ ?_
        intro c hc
        rcases List.mem_cons.mp hc with h | h
        · subst h; exact digitChar_ne_lbrace _
        · exact hds c h

theorem repr_ne_lbrace (n : Nat) : ∀ c ∈ (Nat.repr n).data, c ≠ '\x7b' := by
  intro c hc
  have : c ∈ Nat.toDigits 10 n := by
    simpa [Nat.repr, List.asString] using hc
  exact toDigitsCore_ne_lbrace 10 (n + 1) n [] (by simp) c this

theorem splitMarkerAux_append_free (m : List Char) (hm : ∀ c ∈ m, c ≠ '\x7b') :
    ∀ (rest acc : List Char),
      splitMarkerAux (m ++ rest) acc = splitMarkerAux rest (m.reverse ++ acc) := by
  induction m with
  | nil => intro rest acc; simp
  | cons c m' ih =>
      intro rest acc
      have hc : c ≠ '\x7b' := hm c (List.mem_cons_self c m')
      have hm' : ∀ x ∈ m', x ≠ '\x7b' := fun x hx => hm x (List.mem_cons_of_mem c hx)
      cases hmr : m' ++ rest with
      | nil =>
          obtain ⟨h1, h2⟩ := List.append_eq_nil.mp hmr
          subst h1; subst h2
          simp [splitMarkerAux]
      | cons c2 rest2 =>
          have step : splitMarkerAux (c :: m' ++ rest) acc
              = splitMarkerAux (m' ++ rest) (c :: acc) := by
            rw [List.cons_append, hmr]
            simp [splitMarkerAux, hc]
          rw [step, ih hm' rest (c :: acc)]
          simp [List.append_assoc]

theorem splitMarkerAux_marker (rest acc : List Char) :
    splitMarkerAux ('\x7b' :: '\x7d' :: rest) acc = acc.reverse :: splitMarkerAux rest [] := by
  simp [splitMarkerAux]

theorem splitMarkerAux_free (m : List Char) (hm : ∀ c ∈ m, c ≠ '\x7b') (acc : List Char) :
    splitMarkerAux m acc = [acc.reverse ++ m] := by
  have h := splitMarkerAux_append_free m hm [] acc
  rw [List.append_nil] at h
  rw [h]
  simp [splitMarkerAux]

theorem pySplit_case_when (mc : Nat) :
    pySplit ("CASE WHEN \x7b\x7d >= " ++ Nat.repr mc ++ " THEN \x7b\x7d ELSE NULL END")
      = ["CASE WHEN ", (" >= " ++ Nat.repr mc ++ " THEN "), " ELSE NULL END"] := by
  have hdata : ("CASE WHEN \x7b\x7d >= " ++ Nat.repr mc ++ " THEN \x7b\x7d ELSE NULL END").data
      = ("CASE WHEN ").data ++ ('\x7b' :: '\x7d' ::
          ((" >= ").data ++ ((Nat.repr mc).data ++ ((" THEN ").data ++ ('\x7b' :: '\x7d' ::
            (" ELSE NULL END").data))))) := by
    simp [String.data_append]
  have hmid : String.mk ((" >= ").data ++ ((Nat.repr mc).data ++ (" THEN ").data))
      = " >= " ++ Nat.repr mc ++ " THEN " := by
    apply String.ext
    simp [String.data_append]
  rw [pySplit, hdata]
  rw [splitMarkerAux_append_free ("CASE WHEN ").data (by decide)]
  rw [splitMarkerAux_marker]
  rw [splitMarkerAux_append_free (" >= ").data (by decide)]
  rw [splitMarkerAux_append_free ((Nat.repr mc).data) (repr_ne_lbrace mc)]
  rw [splitMarkerAux_append_free (" THEN ").data (by decide)]
  rw [splitMarkerAux_marker]
  rw [splitMarkerAux_free (" ELSE NULL END").data (by decide)]
  simp only [List.append_nil, List.nil_append, List.reverse_reverse, List.reverse_append,
    List.map, List.cons.injEq, and_true]
  refine ⟨trivial, ?_, by apply String.ext; simp⟩
  rw [← hmid]
  apply congrArg String.mk
  simp [List.append_assoc]


theorem str_append_right_ne_empty (a b : String) (hb : b ≠ "") : a ++ b ≠ "" := by
  intro h
  apply hb
  have hd := congrArg String.data h
  simp only [String.data_append] at hd
  apply String.ext
  have := List.append_eq_nil.mp (by simpa using hd)
  simpa using this.2

theorem construct_count (x : Expression) (hx : x.kind ≠ .nonAtomic) :
    Expression.construct ("count(\x7b\x7d)") [x]
      = .ok (countExpression x) := by
  have hsplit : pySplit ("count(\x7b\x7d)") = ["count(", ")"] := rfl
  simp [Expression.construct, hsplit, segItems, argItems, hx, ExprList.append,
    constructTail, countExpression]

theorem construct_case_when (mc : Nat) (c e : Expression)
    (hc : c.kind ≠ .nonAtomic) (he : e.kind ≠ .nonAtomic) :
    Expression.construct
        ("CASE WHEN \x7b\x7d >= " ++ Nat.repr mc ++ " THEN \x7b\x7d ELSE NULL END") [c, e]
      = .ok (caseWhenExpression mc c e) := by
  have hmidne : (" >= " ++ Nat.repr mc ++ " THEN ") ≠ "" :=
    str_append_right_ne_empty _ _ (by decide)
  rw [Expression.construct]
  simp only [pySplit_case_when mc]
  simp [segItems, argItems, hc, he, ExprList.append, constructTail, caseWhenExpression, hmidne]

theorem count_series_of_no_group_by (s : Series) (idx : List String)
    (hgb : s.group_by = none) (hsk : s.expression.kind ≠ .nonAtomic) :
    s.count (some (.groupBy idx)) true
      = .ok (s.copy_override (some ("int64")) none none (some idx) none
          (some (countExpression s.expression)) (some (some (.groupBy idx))) none) := by
  simp [Series.count, Series.derivedAggFuncBase, Series.buildAggExpression,
    construct_count s.expression hsk, Series.resolvePartition, Series.aggFinish, hgb,
    bind_ok_eq, Partition.index]


theorem claim_C3_min_count (s : Series) (e : Expression) (dt : Option String)
    (idx : List String) (mv : Option Nat) (mc : Nat)
    (hmc : 0 < mc) (hgb : s.group_by = none) (hsk : s.expression.kind ≠ .nonAtomic)
    (hek : e.kind ≠ .nonAtomic) :
    (mv ≠ some mc →
      s.derivedAggFunc (some (.window idx mv)) (.expr e) dt true (some mc)
        = .error ("min_count conflicting with min_values in Window" ++ Nat.repr mc ++ " != "
            ++ (match mv with | none => "None" | some v => Nat.repr v)))
    ∧ (mv = some mc →
        ∃ r, s.derivedAggFunc (some (.window idx mv)) (.expr e) dt true (some mc) = .ok r)
    ∧ (∃ r, s.derivedAggFunc (some (.groupBy idx)) (.expr e) dt true (some mc) = .ok r
        ∧ r.expression = caseWhenExpression mc (countExpression s.expression) e
        ∧ r.group_by = some (.groupBy idx) ∧ r.index = idx ∧ r.dtype = dt.getD s.dtype) := by
  refine ⟨fun hne => ?_, fun heq => ?_, ?_⟩
  · simp [Series.derivedAggFunc, Series.buildAggExpression, Series.resolvePartition,
      Series.minCountAdjust, hmc, hne, bind_ok_eq, bind_error_eq]
  · subst heq
    refine ⟨s.copy_override (some (dt.getD s.dtype)) none none none none
      (some ((Partition.window idx (some mc)).getWindowExpression e)) none none, ?_⟩
    simp [Series.derivedAggFunc, Series.buildAggExpression, Series.resolvePartition,
      Series.minCountAdjust, hmc, Series.aggFinish, bind_ok_eq]
  · have hcount := count_series_of_no_group_by s idx hgb hsk
    have hcase := construct_case_when mc (countExpression s.expression) e
      (show (countExpression s.expression).kind ≠ .nonAtomic by
        simp [countExpression, Expression.kind]) hek
    refine ⟨s.copy_override (some (dt.getD s.dtype)) none none (some idx) none
      (some (caseWhenExpression mc (countExpression s.expression) e))
      (some (some (.groupBy idx))) none, ?_, ?_, ?_, ?_, ?_⟩
    · simp [Series.derivedAggFunc, Series.buildAggExpression, Series.resolvePartition,
        Series.minCountAdjust, hmc, hcount, Series.copy_override, hcase,
        Series.aggFinish, hgb, bind_ok_eq, Partition.index]
    · simp [Series.copy_override]
    · simp [Series.copy_override]
    · simp [Series.copy_override, Partition.index]
    · simp [Series.copy_override]

theorem claim_C3_witness :
    (Series.derivedAggFunc
        { dtype := "int64", engine := "e", base_node := "n", index := ["i"], name := "x",
          expression := Expression.rawE ("x"), group_by := none, sorted_ascending := none }
        (some (.window ["g"] (some 3)))
        (.expr (Expression.mk .aggregateFunction (.tok (.raw ("sum(x)")) .nil))) none true (some 5)
      = .error ("min_count conflicting with min_values in Window" ++ Nat.repr 5 ++ " != "
          ++ Nat.repr 3))
    ∧ (∃ r, Series.derivedAggFunc
        { dtype := "int64", engine := "e", base_node := "n", index := ["i"], name := "x",
          expression := Expression.rawE ("x"), group_by := none, sorted_ascending := none }
        (some (.groupBy ["g"]))
        (.expr (Expression.mk .aggregateFunction (.tok (.raw ("sum(x)")) .nil))) none true (some 5)
        = .ok r
      ∧ r.expression = caseWhenExpression 5 (countExpression (Expression.rawE ("x")))
          (Expression.mk .aggregateFunction (.tok (.raw ("sum(x)")) .nil))) := by
  have h := claim_C3_min_count
    { dtype := "int64", engine := "e", base_node := "n", index := ["i"], name := "x",
      expression := Expression.rawE ("x"), group_by := none, sorted_ascending := none }
    (Expression.mk .aggregateFunction (.tok (.raw ("sum(x)")) .nil))
    none ["g"] (some 3) 5 (by decide) rfl (by decide) (by decide)
  refine ⟨h.1 (by decide), ?_⟩
  obtain ⟨r, h1, h2, _⟩ := h.2.2
  exact ⟨r, h1, h2⟩


/-! ## Lemmas about the savepoint registry -/

theorem Savepoints.findEntry_append_single_of_none (sp : Savepoints) (nm : String)
    (e : SavepointEntry) (h : sp.findEntry nm = none) :
    Savepoints.findEntry ⟨sp.entries ++ [e]⟩ nm = if e.name = nm then some e else none := by
  simp only [Savepoints.findEntry] at h ⊢
  rw [List.find?_append, h]
  by_cases hc : e.name = nm <;> simp [List.find?, hc]

theorem claim_C5_add_savepoint (sp : Savepoints) (nm : String) (df df2 : DataFrameM)
    (mat mat2 : Materialization) :
    (validSavepointName nm = false →
      sp.add_savepoint nm df mat
        = .error ("Name must match ^[a-zA-Z0-9_]+$, name: \"" ++ nm ++ "\""))
    ∧ (∀ e, validSavepointName nm = true → sp.findEntry nm = some e →
        e.df_original = df → e.materialization = mat →
        sp.add_savepoint nm df mat = .ok sp)
    ∧ (∀ e, validSavepointName nm = true → sp.findEntry nm = some e →
        (e.df_original ≠ df ∨ e.materialization ≠ mat) →
        sp.add_savepoint nm df mat
          = .error ("A different savepoint with the name \"" ++ nm ++ "\" already exists."))
    ∧ (validSavepointName nm = true → sp.findEntry nm = none →
        sp.add_savepoint nm df mat
          = .ok ⟨sp.entries ++ [⟨nm, df, mat, []⟩]⟩)
    ∧ (validSavepointName nm = true → sp.findEntry nm = none →
        ∃ sp2, sp.add_savepoint nm df mat = .ok sp2
          ∧ sp2.add_savepoint nm df mat = .ok sp2
          ∧ ((df2 ≠ df ∨ mat2 ≠ mat) →
              sp2.add_savepoint nm df2 mat2
                = .error ("A different savepoint with the name \"" ++ nm
                    ++ "\" already exists."))) := by
  refine ⟨fun hv => ?_, fun e hv hf h1 h2 => ?_, fun e hv hf hne => ?_, fun hv hf => ?_,
    fun hv hf => ?_⟩
  · simp [Savepoints.add_savepoint, hv]
  · simp [Savepoints.add_savepoint, hv, hf, h1, h2]
  · rcases hne with hne | hne <;> simp [Savepoints.add_savepoint, hv, hf, hne]
  · simp [Savepoints.add_savepoint, hv, hf]
  · refine ⟨⟨sp.entries ++ [⟨nm, df, mat, []⟩]⟩,
      by simp [Savepoints.add_savepoint, hv, hf], ?_, ?_⟩
    · have hfind := Savepoints.findEntry_append_single_of_none sp nm ⟨nm, df, mat, []⟩ hf
      simp only [if_pos rfl] at hfind
      simp [Savepoints.add_savepoint, hv, hfind]
    · intro hne
      have hfind := Savepoints.findEntry_append_single_of_none sp nm ⟨nm, df, mat, []⟩ hf
      simp only [if_pos rfl] at hfind
      rcases hne with hne | hne <;>
        simp [Savepoints.add_savepoint, hv, hfind, hne, Ne.symm hne]

theorem claim_C5_witness :
    (Savepoints.add_savepoint ⟨[]⟩ ("bad name!") ⟨"n"⟩ .query
      = .error ("Name must match ^[a-zA-Z0-9_]+$, name: \"bad name!\""))
    ∧ (∃ sp2 : Savepoints, Savepoints.add_savepoint ⟨[]⟩ ("sp_1") ⟨"n"⟩ .table = .ok sp2
        ∧ sp2.add_savepoint ("sp_1") ⟨"n"⟩ .table = .ok sp2
        ∧ sp2.add_savepoint ("sp_1") ⟨"n"⟩ .view
            = .error ("A different savepoint with the name \"sp_1\" already exists.")) := by
  have h := claim_C5_add_savepoint ⟨[]⟩ ("sp_1") ⟨"n"⟩ ⟨"n"⟩ .table .view
  refine ⟨(claim_C5_add_savepoint ⟨[]⟩ ("bad name!") ⟨"n"⟩ ⟨"n"⟩ .query .query).1 (by decide),
    ?_⟩
  obtain ⟨sp2, h1, h2, h3⟩ := h.2.2.2.2 (by decide) rfl
  exact ⟨sp2, h1, h2, h3 (Or.inr (by decide))⟩


theorem drop_filterMap_names (sp : Savepoints) :
    ∀ l : List (String × String),
      ((l.filterMap (fun p =>
        match sp.findEntry p.1 with
        | some info =>
            match info.materialization with
            | .table => some (p.1, "drop table if exists " ++ quote_identifier p.1)
            | .view => some (p.1, "drop view if exists " ++ quote_identifier p.1)
            | _ => none
        | none => none)).map Prod.fst)
      = (l.map Prod.fst).filter (sp.isTableOrView)
  | [] => rfl
  | p :: l => by
      have ih := drop_filterMap_names sp l
      cases hf : sp.findEntry p.1 with
      | none => simpa [List.filterMap_cons, hf, Savepoints.isTableOrView] using ih
      | some info =>
          cases hm : info.materialization <;>
            simpa [List.filterMap_cons, hf, hm, Savepoints.isTableOrView] using ih

theorem create_filter_names (sp : Savepoints) :
    ∀ l : List (String × String),
      ((l.filter (fun p =>
        match sp.findEntry p.1 with
        | some info =>
            info.materialization = Materialization.table
              ∨ info.materialization = Materialization.view
        | none => False)).map Prod.fst)
      = (l.map Prod.fst).filter (sp.isTableOrView)
  | [] => rfl
  | p :: l => by
      have ih := create_filter_names sp l
      cases hf : sp.findEntry p.1 with
      | none => simpa [List.filter_cons, hf, Savepoints.isTableOrView] using ih
      | some info =>
          cases hm : info.materialization <;>
            simpa [List.filter_cons, hf, hm, Savepoints.isTableOrView] using ih

/-- C9: drop statements are exactly the TABLE/VIEW entries keyed by name in the
reverse of the statement order produced by `to_sql`, each holding the matching
drop statement; create statements are the TABLE/VIEW restriction of `to_sql` in
forward order; hence the drop names are the reverse of the create names. -/
theorem claim_C9_drop_create_statements (sp : Savepoints) :
    ((sp.get_drop_statements).map Prod.fst
        = (((sp.to_sql).map Prod.fst).filter sp.isTableOrView).reverse)
    ∧ ((sp.get_create_statements).map Prod.fst
        = ((sp.to_sql).map Prod.fst).filter sp.isTableOrView)
    ∧ ((sp.get_drop_statements).map Prod.fst
        = ((sp.get_create_statements).map Prod.fst).reverse)
    ∧ (∀ p ∈ sp.get_drop_statements, ∃ e, sp.findEntry p.1 = some e
        ∧ ((e.materialization = Materialization.table
              ∧ p.2 = "drop table if exists " ++ quote_identifier p.1)
          ∨ (e.materialization = Materialization.view
              ∧ p.2 = "drop view if exists " ++ quote_identifier p.1)))
    ∧ (∀ p ∈ sp.get_create_statements, p ∈ sp.to_sql ∧ sp.isTableOrView p.1 = true) := by
  have h1 : (sp.get_drop_statements).map Prod.fst
      = (((sp.to_sql).map Prod.fst).filter sp.isTableOrView).reverse := by
    rw [Savepoints.get_drop_statements, drop_filterMap_names sp, List.map_reverse,
      List.filter_reverse]
  have h2 : (sp.get_create_statements).map Prod.fst
      = ((sp.to_sql).map Prod.fst).filter sp.isTableOrView := by
    rw [Savepoints.get_create_statements, create_filter_names sp]
  refine ⟨h1, h2, by rw [h1, h2], ?_, ?_⟩
  · intro p hp
    obtain ⟨a, ha, hFa⟩ := List.mem_filterMap.mp hp
    cases hf : sp.findEntry a.1 with
    | none => simp [hf] at hFa
    | some info =>
        cases hm : info.materialization
        case query => simp [hf, hm] at hFa
        case virtualNode => simp [hf, hm] at hFa
        case table =>
            simp only [hf, hm, Option.some.injEq] at hFa
            subst hFa
            exact ⟨info, hf, Or.inl ⟨hm, rfl⟩⟩
        case view =>
            simp only [hf, hm, Option.some.injEq] at hFa
            subst hFa
            exact ⟨info, hf, Or.inr ⟨hm, rfl⟩⟩
  · intro p hp
    have hmem := List.mem_filter.mp hp
    refine ⟨hmem.1, ?_⟩
    have := hmem.2
    cases hf : sp.findEntry p.1 with
    | none => rw [hf] at this; exact absurd this (by simp)
    | some info =>
        rw [hf] at this
        simp only [Savepoints.isTableOrView, hf]
        simpa using this


/-! ## Lemmas about transactional execution (C1) -/

theorem findEntry_append_of_not_mem (l1 l2 : List SavepointEntry) (nm : String)
    (h : ∀ e ∈ l1, e.name ≠ nm) :
    Savepoints.findEntry ⟨l1 ++ l2⟩ nm = Savepoints.findEntry ⟨l2⟩ nm := by
  simp only [Savepoints.findEntry]
  rw [List.find?_append, List.find?_eq_none.mpr (by simpa using h)]
  rfl

theorem findEntry_cons_self (x : SavepointEntry) (l : List SavepointEntry) :
    Savepoints.findEntry ⟨x :: l⟩ x.name = some x := by
  simp [Savepoints.findEntry, List.find?]

theorem map_update_noop (nm : String) (url : String) :
    ∀ l : List SavepointEntry, (∀ e ∈ l, e.name ≠ nm) →
      l.map (fun e => if e.name = nm then addUrlEntry url e else e) = l
  | [], _ => rfl
  | e :: l, h => by
      simp only [List.map_cons, if_neg (h e (by simp))]
      rw [map_update_noop nm url l (fun x hx => h x (by simp [hx]))]

theorem addWritten_append_unique (l1 : List SavepointEntry) (x : SavepointEntry)
    (l2 : List SavepointEntry) (url : String)
    (h1 : ∀ e ∈ l1, e.name ≠ x.name) (h2 : ∀ e ∈ l2, e.name ≠ x.name) :
    addWritten (l1 ++ x :: l2) x.name url = l1 ++ addUrlEntry url x :: l2 := by
  simp [addWritten, map_update_noop x.name url l1 h1, map_update_noop x.name url l2 h2]

theorem addUrlEntry_name (url : String) (e : SavepointEntry) :
    (addUrlEntry url e).name = e.name := rfl

theorem execLoop_fails (engine : Engine) :
    ∀ (pre : List SavepointEntry) (einfo : SavepointEntry) (post : List SavepointEntry)
      (done : List SavepointEntry) (created : List CreatedObject)
      (dat : List (String × List (List String))),
      (∀ e ∈ done, ∀ y ∈ pre ++ einfo :: post, e.name ≠ y.name) →
      (((pre ++ einfo :: post).map SavepointEntry.name).Nodup) →
      (∀ x ∈ pre, engine.execOk (entryStatement x) = true) →
      engine.execOk (entryStatement einfo) = false →
      execLoop engine ((pre ++ einfo :: post).map (fun e => (e.name, entryStatement e)))
          (done ++ pre ++ einfo :: post) created dat
        = (.error ("statement failed: " ++ entryStatement einfo),
           done ++ pre.map (addUrlEntry engine.url) ++ einfo :: post)
  | [], einfo, post, done, created, dat, hd, hn, hok, hfail => by
      have hfind : Savepoints.findEntry ⟨done ++ einfo :: post⟩ einfo.name = some einfo := by
        rw [findEntry_append_of_not_mem done (einfo :: post) einfo.name
          (fun e he => hd e he einfo (by simp))]
        exact findEntry_cons_self einfo post
      simp [execLoop, hfind, hfail]
  | x :: pre, einfo, post, done, created, dat, hd, hn, hok, hfail => by
      have hn1 : (x.name :: ((pre ++ einfo :: post).map SavepointEntry.name)).Nodup := by
        simpa using hn
      have hxname : ∀ y ∈ pre ++ einfo :: post, x.name ≠ y.name := by
        intro y hy hEq
        exact (List.nodup_cons.mp hn1).1 (hEq ▸ List.mem_map_of_mem SavepointEntry.name hy)
      have hfind : Savepoints.findEntry ⟨done ++ x :: (pre ++ einfo :: post)⟩ x.name
          = some x := by
        rw [findEntry_append_of_not_mem done (x :: (pre ++ einfo :: post)) x.name
          (fun e he => hd e he x (by simp))]
        exact findEntry_cons_self x _
      have hupd : addWritten (done ++ x :: (pre ++ einfo :: post)) x.name engine.url
          = done ++ addUrlEntry engine.url x :: (pre ++ einfo :: post) :=
        addWritten_append_unique done x (pre ++ einfo :: post) engine.url
          (fun e he => hd e he x (by simp)) (fun e he hEq => hxname e he hEq.symm)
      have hd2 : ∀ e ∈ done ++ [addUrlEntry engine.url x], ∀ y ∈ pre ++ einfo :: post,
          e.name ≠ y.name := by
        intro e he y hy
        rcases List.mem_append.mp he with he | he
        · exact hd e he y (by simp [List.mem_cons]; right; simpa using hy)
        · have : e = addUrlEntry engine.url x := by simpa using he
          rw [this, addUrlEntry_name]
          exact hxname y hy
      have hn2 : ((pre ++ einfo :: post).map SavepointEntry.name).Nodup :=
        (List.nodup_cons.mp hn1).2
      have ih := execLoop_fails engine pre einfo post (done ++ [addUrlEntry engine.url x])
        (if x.materialization = Materialization.table ∨
            x.materialization = Materialization.view then
          created ++ [⟨x.name, x.materialization⟩] else created)
        (if x.materialization = Materialization.query then
          dat ++ [(x.name, engine.rows (entryStatement x))] else dat)
        hd2 hn2 (fun y hy => hok y (by simp [hy])) hfail
      have hxok : engine.execOk (entryStatement x) = true := hok x (by simp)
      simp only [List.cons_append, List.map_cons, List.append_assoc]
      rw [execLoop, hfind]
      simp only [hxok, if_true, hupd]
      simpa [List.append_assoc, List.singleton_append] using ih

/-- C1 (amended): if the statement of entry `einfo` fails while all statements
before it succeed, `execute_sql` raises — no created-object markers and no
query results are returned, and the database transaction is rolled back — but
the in-memory engine-identity sets are NOT all unchanged: every entry whose
statement already succeeded has the engine identity added, while the failing
entry and all later entries keep their previous sets. -/
theorem claim_C1_corrected_execute (sp : Savepoints) (engine : Engine)
    (epre : List SavepointEntry) (einfo : SavepointEntry) (epost : List SavepointEntry)
    (hsp : sp.entries = epre ++ einfo :: epost)
    (hnodup : (sp.entries.map SavepointEntry.name).Nodup)
    (hok : ∀ x ∈ epre, engine.execOk (entryStatement x) = true)
    (hfail : engine.execOk (entryStatement einfo) = false) :
    (sp.execute_sql engine false).1 = .error ("statement failed: " ++ entryStatement einfo)
    ∧ (sp.execute_sql engine false).2.entries
        = epre.map (addUrlEntry engine.url) ++ einfo :: epost := by
  have hloop := execLoop_fails engine epre einfo epost [] [] []
    (by simp) (by rw [hsp] at hnodup; simpa using hnodup) hok hfail
  simp only [List.nil_append] at hloop
  have hmain : sp.execute_sql engine false
      = (.error ("statement failed: " ++ entryStatement einfo),
         ⟨epre.map (addUrlEntry engine.url) ++ einfo :: epost⟩) := by
    simp only [Savepoints.execute_sql, Bool.false_eq_true, if_false, Savepoints.to_sql, hsp,
      hloop]
  exact ⟨by rw [hmain], by rw [hmain]⟩

theorem claim_C1_corrected_witness :
    ((Savepoints.execute_sql
        ⟨[⟨"a", ⟨"s1"⟩, .query, []⟩, ⟨"b", ⟨"s2"⟩, .table, []⟩, ⟨"c", ⟨"s3"⟩, .view, []⟩]⟩
        ⟨"pg", fun stmt => stmt != "create table \"b\" as select * from s2", fun _ => []⟩
        false).1
      = .error ("statement failed: " ++
          entryStatement ⟨"b", ⟨"s2"⟩, .table, []⟩))
    ∧ ((Savepoints.execute_sql
        ⟨[⟨"a", ⟨"s1"⟩, .query, []⟩, ⟨"b", ⟨"s2"⟩, .table, []⟩, ⟨"c", ⟨"s3"⟩, .view, []⟩]⟩
        ⟨"pg", fun stmt => stmt != "create table \"b\" as select * from s2", fun _ => []⟩
        false).2.entries
      = [⟨"a", ⟨"s1"⟩, .query, ["pg"]⟩, ⟨"b", ⟨"s2"⟩, .table, []⟩, ⟨"c", ⟨"s3"⟩, .view, []⟩]) := by
  have h := claim_C1_corrected_execute
    ⟨[⟨"a", ⟨"s1"⟩, .query, []⟩, ⟨"b", ⟨"s2"⟩, .table, []⟩, ⟨"c", ⟨"s3"⟩, .view, []⟩]⟩
    ⟨"pg", fun stmt => stmt != "create table \"b\" as select * from s2", fun _ => []⟩
    [⟨"a", ⟨"s1"⟩, .query, []⟩] ⟨"b", ⟨"s2"⟩, .table, []⟩ [⟨"c", ⟨"s3"⟩, .view, []⟩]
    rfl (by decide) (by decide) (by decide)
  exact ⟨h.1, by rw [h.2]; rfl⟩

/-- C1 (counterexample to the claim as stated): with three checkpoints
`a` (QUERY), `b` (TABLE), `c` (VIEW) and an engine that rejects the statement
of `b`, `execute_sql` raises — but the engine-identity set of entry `a` does
not remain unchanged: it gains the engine identity, because the source mutates
`written_to_db` after each successful statement and a later failure does not
undo it. -/
theorem claim_C1_counterexample :
    ((Savepoints.execute_sql
        ⟨[⟨"a", ⟨"s1"⟩, .query, []⟩, ⟨"b", ⟨"s2"⟩, .table, []⟩, ⟨"c", ⟨"s3"⟩, .view, []⟩]⟩
        ⟨"pg", fun stmt => stmt != "create table \"b\" as select * from s2", fun _ => []⟩
        false).1
      = .error ("statement failed: create table \"b\" as select * from s2"))
    ∧ (((Savepoints.execute_sql
        ⟨[⟨"a", ⟨"s1"⟩, .query, []⟩, ⟨"b", ⟨"s2"⟩, .table, []⟩, ⟨"c", ⟨"s3"⟩, .view, []⟩]⟩
        ⟨"pg", fun stmt => stmt != "create table \"b\" as select * from s2", fun _ => []⟩
        false).2.findEntry ("a")).map SavepointEntry.written_to_db
      = some ["pg"])
    ∧ ((Savepoints.findEntry
        ⟨[⟨"a", ⟨"s1"⟩, .query, []⟩, ⟨"b", ⟨"s2"⟩, .table, []⟩, ⟨"c", ⟨"s3"⟩, .view, []⟩]⟩
        ("a")).map SavepointEntry.written_to_db
      = some []) := by
  refine ⟨?_, ?_, ?_⟩ <;> rfl


theorem claim_C9_witness :
    ((Savepoints.get_drop_statements
        ⟨[⟨"a", ⟨"s1"⟩, .query, []⟩, ⟨"b", ⟨"s2"⟩, .table, []⟩, ⟨"c", ⟨"s3"⟩, .view, []⟩]⟩).map
          Prod.fst = ["c", "b"])
    ∧ ((Savepoints.get_create_statements
        ⟨[⟨"a", ⟨"s1"⟩, .query, []⟩, ⟨"b", ⟨"s2"⟩, .table, []⟩, ⟨"c", ⟨"s3"⟩, .view, []⟩]⟩).map
          Prod.fst = ["b", "c"])
    ∧ (∃ e, Savepoints.findEntry
          ⟨[⟨"a", ⟨"s1"⟩, .query, []⟩, ⟨"b", ⟨"s2"⟩, .table, []⟩, ⟨"c", ⟨"s3"⟩, .view, []⟩]⟩
          ("c") = some e
        ∧ ((e.materialization = Materialization.table
              ∧ "drop view if exists \"c\"" = "drop table if exists " ++ quote_identifier ("c"))
          ∨ (e.materialization = Materialization.view
              ∧ "drop view if exists \"c\"" = "drop view if exists " ++ quote_identifier ("c")))) := by
  have h := claim_C9_drop_create_statements
    ⟨[⟨"a", ⟨"s1"⟩, .query, []⟩, ⟨"b", ⟨"s2"⟩, .table, []⟩, ⟨"c", ⟨"s3"⟩, .view, []⟩]⟩
  refine ⟨by rw [h.1]; rfl, by rw [h.2.1]; rfl, ?_⟩
  exact h.2.2.2.1 ("c", "drop view if exists \"c\"") (by decide)


end Bach
